import Mathlib

/-!
Verification of the `FileLock` component of `py-rcsb_utils_io`
(`rcsb/utils/io/FileLock.py`), a file-existence based advisory lock.

Shallow embedding conventions:

* The per-instance state of a `FileLock` object is `FileLockState`, mirroring
  the fields set in `FileLock.__init__`: `__lockFilePath`,
  `__lockFileFileDescriptor` (None ↦ `none`), `__defaultTimeout`,
  `__lockCount`.  The Python lock count is a machine integer; we model it as
  `Int` so that non-negativity is a provable property, not a typing artifact.
* Wall-clock time values (timeouts, `time.time() - startTime`) are `Rat`.
* The filesystem seen by one instance is reduced to the one bit the code
  consults: whether the lock file exists (`Bool`).
* `os.open(..., O_CREAT | O_EXCL)` together with the preceding
  `FileUtil().mkdir` can produce an `IOError`/`OSError`; a single attempt's
  outside-world outcome is a `CreateOutcome`.  The polling loop of `acquire`
  consumes a schedule `env : Nat → CreateOutcome` giving the outcome of the
  attempt made at iteration `k`, and a function `elapsed : Nat → Rat` giving
  the value of `time.time() - startTime` observed at the timeout check of
  iteration `k`.  `time.sleep(pollInterval)` changes no program state and is
  absorbed into `elapsed`.
* The `while True:` loop of `acquire` is given fuel; `AcquireResult.fuelOut`
  marks a run that was still polling when the fuel ran out (a call that has
  not yet returned or raised).
* An exception that a function propagates to its caller is returned in an
  `Option OSErrorKind` component; `none` means "returned normally".
-/

/-- Kinds of `IOError` / `OSError` that the filesystem calls can raise.
`alreadyExists` is `FileExistsError` from `O_EXCL` creation; the others are
non-contention errors such as `PermissionError` or a missing parent
directory. -/
inductive OSErrorKind where
  | alreadyExists
  | permissionDenied
  | missingParentDir
  | otherOSError
deriving DecidableEq

/-- Outcome of one attempt of `FileUtil().mkdir(...)` followed by
`os.open(path, O_WRONLY | O_CREAT | O_EXCL | O_TRUNC)`: either a fresh file
descriptor, or an `IOError`/`OSError`. -/
inductive CreateOutcome where
  | created (fd : Nat)
  | oserror (e : OSErrorKind)
deriving DecidableEq

/-- The mutable per-instance state of a `FileLock` object
(`FileLock.__init__`, FileLock.py lines 46-69).  The `threading.Lock`
(`__lockCountLock`) carries no data and is represented by the atomicity of
the step functions below. -/
structure FileLockState where
  lockFilePath : String
  lockFileFileDescriptor : Option Nat
  defaultTimeout : Rat
  lockCount : Int
deriving DecidableEq

/-- `FileLock.__init__(lockFilePath, defaultTimeout)`: descriptor `None`,
count `0`. -/
def FileLock.init (lockFilePath : String) (defaultTimeout : Rat) : FileLockState :=
  { lockFilePath := lockFilePath
    lockFileFileDescriptor := none
    defaultTimeout := defaultTimeout
    lockCount := 0 }

/-- `FileLock.isLocked`: `self.__lockFileFileDescriptor is not None`. -/
def isLocked (s : FileLockState) : Bool :=
  s.lockFileFileDescriptor.isSome

/-- `FileLock.getLockFilePath`. -/
def getLockFilePath (s : FileLockState) : String :=
  s.lockFilePath

/-- Line 95 of `acquire`: `timeout = timeout if timeout else
self.__defaultTimeout`.  Python truthiness: both `None` and `0` (or `0.0`)
select the default. -/
def effectiveTimeout (timeout : Option Rat) (defaultTimeout : Rat) : Rat :=
  match timeout with
  | some t => if t = 0 then defaultTimeout else t
  | none => defaultTimeout

/-- `FileLock.__doAquireLock` applied to one attempt outcome.  The body
wraps `mkdir` + `os.open` in `try: ... except (IOError, OSError): pass`;
on success the descriptor is stored.  The second component is the exception
the call propagates. -/
def doAquireLock (s : FileLockState) (outcome : CreateOutcome) :
    FileLockState × Option OSErrorKind :=
  match outcome with
  | .created fd => ({ s with lockFileFileDescriptor := some fd }, none)
  | .oserror _ => (s, none)

/-- `os.remove(path)` on a filesystem where the file exists iff the `Bool`
argument is true: returns the new existence bit and the raised `OSError`
(raised exactly when the file is absent). -/
def osRemove (fileExists : Bool) : Bool × Option OSErrorKind :=
  if fileExists then (false, none) else (false, some .otherOSError)

/-- `FileLock.__doReleaseLock`: close the descriptor, clear it, then
`try: os.remove(path) except OSError: pass`.  Components: new instance
state, new file-existence bit, propagated exception. -/
def doReleaseLock (s : FileLockState) (fileExists : Bool) :
    FileLockState × Bool × Option OSErrorKind :=
  let s1 : FileLockState := { s with lockFileFileDescriptor := none }
  let r := osRemove fileExists
  match r.2 with
  | some _ => (s1, r.1, none)
  | none => (s1, r.1, none)

/-- `FileLock.release(force)` (lines 126-142), the whole body running under
`__lockCountLock`: if not locked, no-op; otherwise decrement the count and,
when it reaches exactly `0` or `force` is set, perform the filesystem
release and zero the count.  Components: new instance state, new
file-existence bit, propagated exception. -/
def release (s : FileLockState) (force : Bool) (fileExists : Bool) :
    FileLockState × Bool × Option OSErrorKind :=
  if isLocked s = true then
    let s1 : FileLockState := { s with lockCount := s.lockCount - 1 }
    if s1.lockCount = 0 ∨ force = true then
      let r := doReleaseLock s1 fileExists
      ({ r.1 with lockCount := 0 }, r.2.1, r.2.2)
    else
      (s1, fileExists, none)
  else
    (s, fileExists, none)

/-- Result of a call to `FileLock.acquire`: normal return of the
`AcquireProxy` (with the final instance state), a raised
`Timeout(self.__lockFilePath)` (with the path payload and the instance state
after the `except` handler ran), or fuel exhaustion (the call is still in
its polling loop). -/
inductive AcquireResult where
  | proxy (s : FileLockState)
  | timeoutErr (path : String) (s : FileLockState)
  | fuelOut (s : FileLockState)
deriving DecidableEq

/-- The `while True:` loop of `FileLock.acquire` (lines 104-118) together
with the `except` handler (lines 119-123).  At iteration `k`: under the
count mutex, if not locked, attempt creation with outcome `env k`; if now
locked, return the proxy; else if `timeout >= 0 and time.time() - startTime
> timeout`, run the handler (`lockCount = max(0, lockCount - 1)`) and
re-raise `Timeout(lockFilePath)`; else sleep and loop. -/
def acquireLoop (env : Nat → CreateOutcome) (elapsed : Nat → Rat) (timeout : Rat) :
    Nat → Nat → FileLockState → AcquireResult
  | 0, _, s => .fuelOut s
  | fuel + 1, k, s =>
    let s1 := if isLocked s = true then s else (doAquireLock s (env k)).1
    if isLocked s1 = true then
      .proxy s1
    else if 0 ≤ timeout ∧ timeout < elapsed k then
      .timeoutErr s1.lockFilePath { s1 with lockCount := max 0 (s1.lockCount - 1) }
    else
      acquireLoop env elapsed timeout fuel (k + 1) s1

/-- `FileLock.acquire(timeout, pollInterval)` (lines 80-124): resolve the
effective timeout (line 95), increment the count under the mutex (reservation,
lines 97-98), then run the polling loop. -/
def acquire (s : FileLockState) (timeout : Option Rat) (env : Nat → CreateOutcome)
    (elapsed : Nat → Rat) (fuel : Nat) : AcquireResult :=
  let t := effectiveTimeout timeout s.defaultTimeout
  acquireLoop env elapsed t fuel 0 { s with lockCount := s.lockCount + 1 }

/-! ### Iterated-call and multi-instance scenarios used by the theorems -/

/-- One uncontended `acquire()` call (no timeout argument, creation succeeds
whenever attempted, returning descriptor `v`): `some` of the new state on
normal return, `none` if the call did not return normally. -/
def acquireStep (v : Nat) (s : FileLockState) : Option FileLockState :=
  match acquire s none (fun _ => .created v) (fun _ => 0) 1 with
  | .proxy s1 => some s1
  | _ => none

/-- `n` nested uncontended `acquire()` calls on the same instance. -/
def acquireIter (v : Nat) : Nat → FileLockState → Option FileLockState
  | 0, s => some s
  | n + 1, s => (acquireStep v s).bind (acquireIter v n)

/-- One `release()` call (no `force`), threading the file-existence bit. -/
def releaseStep (sf : FileLockState × Bool) : FileLockState × Bool :=
  ((release sf.1 false sf.2).1, (release sf.1 false sf.2).2.1)

/-- One public operation on a `FileLock` instance: an `acquire` call (with
its timeout argument and the outside world it observes) or a `release`
call (with the file-existence bit at call time). -/
inductive Op where
  | acq (timeout : Option Rat) (env : Nat → CreateOutcome) (elapsed : Nat → Rat) (fuel : Nat)
  | rel (force : Bool) (fileExists : Bool)

/-- Run one public operation to completion; `none` when the `acquire` call
was still polling when its fuel ran out (no completed or raising call to
observe). -/
def runOp (s : FileLockState) (op : Op) : Option FileLockState :=
  match op with
  | .acq t env elapsed fuel =>
    match acquire s t env elapsed fuel with
    | .proxy s1 => some s1
    | .timeoutErr _ s1 => some s1
    | .fuelOut _ => none
  | .rel force fileExists => some (release s force fileExists).1

/-- Run a sequence of public operations. -/
def runOps : FileLockState → List Op → Option FileLockState
  | s, [] => some s
  | s, op :: ops => (runOp s op).bind (fun s1 => runOps s1 ops)

/-- The spec's state invariant: the hold count is non-negative, and it is
positive exactly when the descriptor is present. -/
def holdInv (s : FileLockState) : Prop :=
  0 ≤ s.lockCount ∧ (0 < s.lockCount ↔ isLocked s = true)

/-! ### Claims C1 and C10: the cross-process interleaving model

`n` FileLock instances (threads of distinct processes, or distinct
processes) contend for one lock path on a shared filesystem with atomic
create-exclusive.  Each atomic step is one of the code's critical sections:
the count reservation (lines 97-98), the mutex-protected
check-and-create (lines 105-108, with `os.open(O_EXCL)` atomic on the
filesystem), the `except`-handler decrement (lines 119-121), and the
mutex-protected body of `release`. -/

structure GlobalState (n : Nat) where
  fileExists : Bool
  inst : Fin n → FileLockState

/-- Lines 97-98 of `acquire` executed by instance `i`. -/
def reserveG {n : Nat} (g : GlobalState n) (i : Fin n) : GlobalState n :=
  let s := g.inst i
  let s1 : FileLockState := { s with lockCount := s.lockCount + 1 }
  { g with inst := Function.update g.inst i s1 }

/-- Lines 105-108 of `acquire` executed by instance `i`: under the count
mutex, if this instance is not locked, attempt the exclusive create, whose
outcome is dictated by the shared filesystem: success iff the lock file
does not exist.  (If the instance is already locked, or the file exists,
the state is unchanged.) -/
def tryCreateG {n : Nat} (g : GlobalState n) (i : Fin n) (v : Nat) : GlobalState n :=
  if isLocked (g.inst i) = false ∧ g.fileExists = false then
    { fileExists := true,
      inst := Function.update g.inst i (doAquireLock (g.inst i) (.created v)).1 }
  else g

/-- Lines 119-121 of `acquire` (the `except` handler) executed by `i`. -/
def timeoutDecG {n : Nat} (g : GlobalState n) (i : Fin n) : GlobalState n :=
  let s := g.inst i
  let s1 : FileLockState := { s with lockCount := max 0 (s.lockCount - 1) }
  { g with inst := Function.update g.inst i s1 }

/-- The body of `release` executed by instance `i`. -/
def releaseG {n : Nat} (g : GlobalState n) (i : Fin n) (force : Bool) : GlobalState n :=
  let r := release (g.inst i) force g.fileExists
  { fileExists := r.2.1, inst := Function.update g.inst i r.1 }

/-- One atomic step of any contender. -/
inductive GStep {n : Nat} : GlobalState n → GlobalState n → Prop where
  | reserve (g : GlobalState n) (i : Fin n) : GStep g (reserveG g i)
  | tryCreate (g : GlobalState n) (i : Fin n) (v : Nat) : GStep g (tryCreateG g i v)
  | timeoutDec (g : GlobalState n) (i : Fin n) : GStep g (timeoutDecG g i)
  | rel (g : GlobalState n) (i : Fin n) (force : Bool) : GStep g (releaseG g i force)

/-- All instances fresh, no lock file. -/
def initG (n : Nat) (p : String) (d : Rat) : GlobalState n :=
  { fileExists := false, inst := fun _ => FileLock.init p d }

def ReachableG (n : Nat) (p : String) (d : Rat) (g : GlobalState n) : Prop :=
  Relation.ReflTransGen GStep (initG n p d) g

/-- The mutual-exclusion invariant: a holder implies the lock file exists,
and at most one instance holds. -/
def MutexInv {n : Nat} (g : GlobalState n) : Prop :=
  (∀ i, isLocked (g.inst i) = true → g.fileExists = true) ∧
  (∀ i j, isLocked (g.inst i) = true → isLocked (g.inst j) = true → i = j)

/-! ### Helper lemmas about the acquire loop -/

theorem isLocked_setCount (s : FileLockState) (c : Int) :
    isLocked { s with lockCount := c } = isLocked s := rfl

theorem acquireLoop_proxy {env : Nat → CreateOutcome} {elapsed : Nat → Rat} {t : Rat}
    {fuel k : Nat} {s s1 : FileLockState}
    (h : acquireLoop env elapsed t fuel k s = .proxy s1) :
    s1.lockFilePath = s.lockFilePath ∧ s1.defaultTimeout = s.defaultTimeout ∧
      s1.lockCount = s.lockCount ∧ isLocked s1 = true := by
  induction fuel generalizing k s with
  | zero => simp [acquireLoop] at h
  | succ fuel ih =>
    rw [acquireLoop] at h
    cases hL : isLocked s with
    | true =>
      simp only [hL, if_true] at h
      cases h
      exact ⟨rfl, rfl, rfl, hL⟩
    | false =>
      simp only [hL, Bool.false_eq_true, if_false] at h
      cases hE : env k with
      | created fd =>
        simp only [hE, doAquireLock, isLocked, Option.isSome_some, if_true] at h
        cases h
        exact ⟨rfl, rfl, rfl, rfl⟩
      | oserror e =>
        simp only [hE, doAquireLock, hL, Bool.false_eq_true, if_false] at h
        by_cases hT : 0 ≤ t ∧ t < elapsed k
        · rw [if_pos hT] at h
          cases h
        · rw [if_neg hT] at h
          exact ih h

theorem acquireLoop_timeout {env : Nat → CreateOutcome} {elapsed : Nat → Rat} {t : Rat}
    {fuel k : Nat} {s : FileLockState} {p : String} {s1 : FileLockState}
    (h : acquireLoop env elapsed t fuel k s = .timeoutErr p s1) :
    isLocked s = false ∧ p = s.lockFilePath ∧
      s1 = { s with lockCount := max 0 (s.lockCount - 1) } ∧
      0 ≤ t ∧ ∃ j, k ≤ j ∧ t < elapsed j := by
  induction fuel generalizing k s with
  | zero => simp [acquireLoop] at h
  | succ fuel ih =>
    rw [acquireLoop] at h
    cases hL : isLocked s with
    | true =>
      simp only [hL, if_true] at h
      cases h
    | false =>
      simp only [hL, Bool.false_eq_true, if_false] at h
      cases hE : env k with
      | created fd =>
        simp only [hE, doAquireLock, isLocked, Option.isSome_some, if_true] at h
        cases h
      | oserror e =>
        simp only [hE, doAquireLock, hL, Bool.false_eq_true, if_false] at h
        by_cases hT : 0 ≤ t ∧ t < elapsed k
        · rw [if_pos hT] at h
          rw [AcquireResult.timeoutErr.injEq] at h
          exact ⟨rfl, h.1.symm, h.2.symm, hT.1, k, le_refl k, hT.2⟩
        · rw [if_neg hT] at h
          obtain ⟨h1, h2, h3, h4, j, hj1, hj2⟩ := ih h
          exact ⟨rfl, h2, h3, h4, j, le_trans (Nat.le_succ k) hj1, hj2⟩

theorem acquireLoop_raises {env : Nat → CreateOutcome} {elapsed : Nat → Rat} {t : Rat}
    (fuel k : Nat) (s : FileLockState)
    (hL : isLocked s = false) (hE : ∀ j fd, env j ≠ .created fd) (ht : 0 ≤ t)
    (hj : ∃ j, k ≤ j ∧ j < k + fuel ∧ t < elapsed j) :
    acquireLoop env elapsed t fuel k s =
      .timeoutErr s.lockFilePath { s with lockCount := max 0 (s.lockCount - 1) } := by
  induction fuel generalizing k with
  | zero =>
    obtain ⟨j, hj1, hj2, _⟩ := hj
    omega
  | succ fuel ih =>
    rw [acquireLoop]
    cases hEk : env k with
    | created fd => exact absurd hEk (hE k fd)
    | oserror e =>
      simp only [hL, Bool.false_eq_true, if_false, hEk, doAquireLock]
      by_cases hT : 0 ≤ t ∧ t < elapsed k
      · rw [if_pos hT]
      · rw [if_neg hT]
        apply ih
        obtain ⟨j, hj1, hj2, hj3⟩ := hj
        have hjk : j ≠ k := by
          intro hEq
          exact hT ⟨ht, hEq ▸ hj3⟩
        exact ⟨j, by omega, by omega, hj3⟩

/-! ### Helper lemmas about release -/

theorem release_unheld {s : FileLockState} (force fileExists : Bool)
    (h : isLocked s = false) : release s force fileExists = (s, fileExists, none) := by
  simp [release, h]

theorem release_held_final {s : FileLockState} {force : Bool} (fileExists : Bool)
    (h : isLocked s = true) (hc : s.lockCount - 1 = 0 ∨ force = true) :
    release s force fileExists =
      (⟨s.lockFilePath, none, s.defaultTimeout, 0⟩, false, none) := by
  simp only [release, h, if_true]
  have hc2 : ({ s with lockCount := s.lockCount - 1 } : FileLockState).lockCount = 0
      ∨ force = true := hc
  simp only [hc2, if_true]
  cases hF : fileExists <;> simp [doReleaseLock, osRemove]

theorem release_held_nested {s : FileLockState} {force : Bool} (fileExists : Bool)
    (h : isLocked s = true) (hc : ¬(s.lockCount - 1 = 0 ∨ force = true)) :
    release s force fileExists =
      ({ s with lockCount := s.lockCount - 1 }, fileExists, none) := by
  simp only [release, h, if_true]
  have hc2 : ¬(({ s with lockCount := s.lockCount - 1 } : FileLockState).lockCount = 0
      ∨ force = true) := hc
  simp only [hc2, if_false]

/-! ### Claims C4 and C5 -/

/-- Claim C4: every `acquire` call either succeeds with the lock held or
raises; a raised `Timeout` carries the lock path and happens only under a
non-negative effective wait bound that some observed elapsed time exceeded;
a negative effective timeout never raises `Timeout`; and when the bound is
non-negative, no creation attempt ever succeeds, and the elapsed clock
exceeds the bound within the available iterations, the call does raise
`Timeout`. -/
theorem acquire_error_contract (s : FileLockState) (targ : Option Rat)
    (env : Nat → CreateOutcome) (elapsed : Nat → Rat) (fuel : Nat) :
    (∀ s1, acquire s targ env elapsed fuel = .proxy s1 → isLocked s1 = true) ∧
    (∀ p s1, acquire s targ env elapsed fuel = .timeoutErr p s1 →
      p = s.lockFilePath ∧ 0 ≤ effectiveTimeout targ s.defaultTimeout ∧
      ∃ j, effectiveTimeout targ s.defaultTimeout < elapsed j) ∧
    (effectiveTimeout targ s.defaultTimeout < 0 →
      ∀ p s1, acquire s targ env elapsed fuel ≠ .timeoutErr p s1) ∧
    (isLocked s = false → (∀ j fd, env j ≠ .created fd) →
      0 ≤ effectiveTimeout targ s.defaultTimeout →
      (∃ j, j < fuel ∧ effectiveTimeout targ s.defaultTimeout < elapsed j) →
      ∃ s1, acquire s targ env elapsed fuel = .timeoutErr s.lockFilePath s1) := by
  refine ⟨?_, ?_, ?_, ?_⟩
  · intro s1 h
    simp only [acquire] at h
    exact (acquireLoop_proxy h).2.2.2
  · intro p s1 h
    simp only [acquire] at h
    obtain ⟨_, hp, _, ht0, j, _, hj⟩ := acquireLoop_timeout h
    exact ⟨hp, ht0, j, hj⟩
  · intro hneg p s1 h
    simp only [acquire] at h
    obtain ⟨_, _, _, ht0, _⟩ := acquireLoop_timeout h
    exact absurd ht0 (not_le.mpr hneg)
  · intro h1 h2 h3 hj
    obtain ⟨j, hjf, hje⟩ := hj
    refine ⟨{ s with lockCount := max 0 (s.lockCount + 1 - 1) }, ?_⟩
    simp only [acquire]
    exact acquireLoop_raises fuel 0 { s with lockCount := s.lockCount + 1 } h1 h2 h3
      ⟨j, Nat.zero_le j, by omega, hje⟩

/-- Witness for C4: with lock path "p", supplied timeout 1, every creation
attempt failing with `FileExistsError`, and elapsed times `0, 1, 2, ...`,
the call raises `Timeout("p")`. -/
theorem acquire_error_contract_witness :
    ∃ s1, acquire (FileLock.init "p" 5) (some 1)
      (fun _ => CreateOutcome.oserror .alreadyExists) (fun j => (j : Rat)) 3 =
      .timeoutErr "p" s1 :=
  (acquire_error_contract (FileLock.init "p" 5) (some 1)
      (fun _ => CreateOutcome.oserror .alreadyExists) (fun j => (j : Rat)) 3).2.2.2
    (by decide) (fun j fd h => nomatch h) (by norm_num [effectiveTimeout])
    ⟨2, by norm_num, by norm_num [effectiveTimeout]⟩

/-- Claim C5: when `acquire` raises `Timeout`, the instance's hold count is
restored to its prior value (and in any case stays non-negative) and
`isLocked()` is false afterward (as it was before the call). -/
theorem acquire_timeout_atomicity (s : FileLockState) (targ : Option Rat)
    (env : Nat → CreateOutcome) (elapsed : Nat → Rat) (fuel : Nat)
    (p : String) (s1 : FileLockState)
    (h : acquire s targ env elapsed fuel = .timeoutErr p s1) (hc : 0 ≤ s.lockCount) :
    s1.lockCount = s.lockCount ∧ 0 ≤ s1.lockCount ∧
      isLocked s1 = false ∧ isLocked s = false := by
  simp only [acquire] at h
  obtain ⟨hLf, _, hs1, _, _⟩ := acquireLoop_timeout h
  subst hs1
  refine ⟨?_, ?_, hLf, hLf⟩
  · simp only
    omega
  · simp only
    omega

/-- Witness for C5: a concrete timed-out `acquire` leaves the count at its
prior value 0 and the instance unlocked. -/
theorem acquire_timeout_atomicity_witness :
    (⟨"p", none, 5, 0⟩ : FileLockState).lockCount = (FileLock.init "p" 5).lockCount ∧
    0 ≤ (⟨"p", none, 5, 0⟩ : FileLockState).lockCount ∧
    isLocked (⟨"p", none, 5, 0⟩ : FileLockState) = false ∧
    isLocked (FileLock.init "p" 5) = false :=
  acquire_timeout_atomicity (FileLock.init "p" 5) (some 1)
    (fun _ => CreateOutcome.oserror .alreadyExists) (fun j => (j : Rat)) 3
    "p" ⟨"p", none, 5, 0⟩ (by decide) (by decide)

/-! ### Claim C2: reentrancy round trip -/

theorem acquireStep_unheld {s : FileLockState} (v : Nat) (h : isLocked s = false) :
    acquireStep v s =
      some { s with lockFileFileDescriptor := some v, lockCount := s.lockCount + 1 } := by
  have h2 : s.lockFileFileDescriptor.isSome = false := h
  simp [acquireStep, acquire, acquireLoop, doAquireLock, isLocked, h2]

theorem acquireStep_held {s : FileLockState} (v : Nat) (h : isLocked s = true) :
    acquireStep v s = some { s with lockCount := s.lockCount + 1 } := by
  have h2 : s.lockFileFileDescriptor.isSome = true := h
  simp [acquireStep, acquire, acquireLoop, isLocked, h2]

theorem acquireIter_held (v : Nat) (p : String) (d : Rat) (fd : Nat) :
    ∀ (n : Nat) (c : Int),
      acquireIter v n ⟨p, some fd, d, c⟩ = some ⟨p, some fd, d, c + n⟩ := by
  intro n
  induction n with
  | zero => intro c; simp [acquireIter]
  | succ n ih =>
    intro c
    have hstep : acquireStep v (⟨p, some fd, d, c⟩ : FileLockState) =
        some ⟨p, some fd, d, c + 1⟩ := acquireStep_held v rfl
    have hc : c + 1 + (n : Int) = c + ((n + 1 : Nat) : Int) := by push_cast; ring
    simp [acquireIter, hstep, ih, hc]

theorem acquireIter_from_init (v : Nat) (p : String) (d : Rat) (N : Nat) (h : 1 ≤ N) :
    acquireIter v N (FileLock.init p d) = some ⟨p, some v, d, (N : Int)⟩ := by
  obtain ⟨m, rfl⟩ : ∃ m, N = m + 1 := ⟨N - 1, by omega⟩
  have hstep : acquireStep v (FileLock.init p d) = some ⟨p, some v, d, 1⟩ :=
    acquireStep_unheld v rfl
  have hm : (1 : Int) + (m : Int) = ((m + 1 : Nat) : Int) := by push_cast; ring
  simp [acquireIter, hstep, acquireIter_held, hm]

theorem releaseStep_held_nested (p : String) (fd : Nat) (d : Rat) (c : Int)
    (h : 1 < c) :
    releaseStep (⟨p, some fd, d, c⟩, true) = (⟨p, some fd, d, c - 1⟩, true) := by
  have hL : isLocked (⟨p, some fd, d, c⟩ : FileLockState) = true := rfl
  have hc : ¬((⟨p, some fd, d, c⟩ : FileLockState).lockCount - 1 = 0 ∨ false = true) := by
    simp only [Bool.false_eq_true, or_false]
    omega
  simp [releaseStep, release_held_nested true hL hc]

theorem releaseStep_held_last (p : String) (fd : Nat) (d : Rat) :
    releaseStep (⟨p, some fd, d, 1⟩, true) = (⟨p, none, d, 0⟩, false) := by
  have hL : isLocked (⟨p, some fd, d, 1⟩ : FileLockState) = true := rfl
  have hc : (⟨p, some fd, d, 1⟩ : FileLockState).lockCount - 1 = 0 ∨ false = true := by
    left; rfl
  simp [releaseStep, release_held_final true hL hc]

theorem releaseStep_iter (p : String) (fd : Nat) (d : Rat) :
    ∀ (K : Nat) (c : Int), (K : Int) < c →
      releaseStep^[K] (⟨p, some fd, d, c⟩, true) = (⟨p, some fd, d, c - K⟩, true) := by
  intro K
  induction K with
  | zero => intro c _; simp
  | succ K ih =>
    intro c hc
    have h1 : 1 < c := by
      have : ((K + 1 : Nat) : Int) = (K : Int) + 1 := by push_cast; ring
      omega
    rw [Function.iterate_succ_apply, releaseStep_held_nested p fd d c h1]
    have h2 : (K : Int) < c - 1 := by
      have : ((K + 1 : Nat) : Int) = (K : Int) + 1 := by push_cast; ring
      omega
    rw [ih (c - 1) h2]
    have h3 : c - 1 - (K : Int) = c - ((K + 1 : Nat) : Int) := by push_cast; ring
    rw [h3]

/-- Claim C2: `N` nested `acquire` calls on one instance (the first creating
the lock file, the rest reentrant) produce hold count `N` with the lock
held; after any `K < N` calls to `release()` the lock is still held; after
`N` calls to `release()` it is no longer held. -/
theorem reentrancy_roundtrip (p : String) (d : Rat) (v : Nat) (N K : Nat)
    (hN : 1 ≤ N) (hK : K < N) :
    acquireIter v N (FileLock.init p d) = some ⟨p, some v, d, (N : Int)⟩ ∧
    isLocked (releaseStep^[K] (⟨p, some v, d, (N : Int)⟩, true)).1 = true ∧
    isLocked (releaseStep^[N] (⟨p, some v, d, (N : Int)⟩, true)).1 = false := by
  refine ⟨acquireIter_from_init v p d N hN, ?_, ?_⟩
  · have hKc : (K : Int) < (N : Int) := by exact_mod_cast hK
    rw [releaseStep_iter p v d K (N : Int) hKc]
    rfl
  · obtain ⟨m, rfl⟩ : ∃ m, N = m + 1 := ⟨N - 1, by omega⟩
    have hm : (m : Int) < ((m + 1 : Nat) : Int) := by push_cast; omega
    rw [Function.iterate_succ_apply', releaseStep_iter p v d m _ hm]
    have h1 : ((m + 1 : Nat) : Int) - (m : Int) = 1 := by push_cast; ring
    rw [h1, releaseStep_held_last p v d]
    rfl

/-- Witness for C2 with N = 3, K = 2. -/
theorem reentrancy_roundtrip_witness :
    acquireIter 7 3 (FileLock.init "p" 5) = some ⟨"p", some 7, 5, ((3 : Nat) : Int)⟩ ∧
    isLocked (releaseStep^[2] (⟨"p", some 7, 5, ((3 : Nat) : Int)⟩, true)).1 = true ∧
    isLocked (releaseStep^[3] (⟨"p", some 7, 5, ((3 : Nat) : Int)⟩, true)).1 = false :=
  reentrancy_roundtrip "p" 5 7 3 2 (by decide) (by decide)

/-! ### Claim C3: the hold-count/handle invariant over completed calls -/

theorem runOp_preserves_holdInv {s s1 : FileLockState} {op : Op}
    (hInv : holdInv s) (h : runOp s op = some s1) : holdInv s1 := by
  obtain ⟨hc0, hiff⟩ := hInv
  cases op with
  | acq t env elapsed fuel =>
    simp only [runOp] at h
    cases hA : acquire s t env elapsed fuel with
    | proxy s2 =>
      rw [hA] at h
      cases h
      simp only [acquire] at hA
      obtain ⟨_, _, hcnt, hLk⟩ := acquireLoop_proxy hA
      have hcnt2 : s1.lockCount = s.lockCount + 1 := hcnt
      exact ⟨by omega, ⟨fun _ => hLk, fun _ => by omega⟩⟩
    | timeoutErr p s2 =>
      rw [hA] at h
      cases h
      simp only [acquire] at hA
      obtain ⟨hLf, _, hs2, _, _⟩ := acquireLoop_timeout hA
      have hLf2 : isLocked s = false := hLf
      have hz : s.lockCount = 0 := by
        have := hiff.mpr
        have h2 : ¬(0 < s.lockCount) := fun hpos => by
          rw [hiff.mp hpos] at hLf2
          cases hLf2
        omega
      subst hs2
      constructor
      · simp only
        omega
      · constructor
        · intro hpos
          simp only at hpos
          omega
        · intro hLk
          have : isLocked s = true := hLk
          rw [this] at hLf2
          cases hLf2
    | fuelOut s2 =>
      rw [hA] at h
      cases h
  | rel force fileExists =>
    simp only [runOp, Option.some.injEq] at h
    by_cases hL : isLocked s = true
    · by_cases hcond : s.lockCount - 1 = 0 ∨ force = true
      · rw [release_held_final fileExists hL hcond] at h
        subst h
        exact ⟨le_refl 0, by simp [isLocked]⟩
      · rw [release_held_nested fileExists hL hcond] at h
        subst h
        have hne : ¬(s.lockCount - 1 = 0) := fun hz => hcond (Or.inl hz)
        have hpos : 0 < s.lockCount := hiff.mpr hL
        exact ⟨by simp only; omega, ⟨fun _ => hL, fun _ => by simp only; omega⟩⟩
    · rw [release_unheld force fileExists (by simpa using hL)] at h
      subst h
      exact ⟨hc0, hiff⟩

theorem runOps_preserves_holdInv :
    ∀ (ops : List Op) (s s1 : FileLockState),
      holdInv s → runOps s ops = some s1 → holdInv s1 := by
  intro ops
  induction ops with
  | nil =>
    intro s s1 hInv h
    simp only [runOps, Option.some.injEq] at h
    subst h
    exact hInv
  | cons op ops ih =>
    intro s s1 hInv h
    simp only [runOps] at h
    obtain ⟨s2, h2, h3⟩ := Option.bind_eq_some.mp h
    exact ih s2 s1 (runOp_preserves_holdInv hInv h2) h3

/-- Claim C3: after construction and after every sequence of completed or
raising `acquire`/`release` calls, the hold count is non-negative and is
positive exactly when the descriptor is present. -/
theorem hold_count_invariant (p : String) (d : Rat) (ops : List Op) (s1 : FileLockState)
    (h : runOps (FileLock.init p d) ops = some s1) :
    0 ≤ s1.lockCount ∧ (0 < s1.lockCount ↔ isLocked s1 = true) :=
  runOps_preserves_holdInv ops (FileLock.init p d) s1
    ⟨le_refl 0, by simp [FileLock.init, isLocked]⟩ h

/-- Witness for C3: one successful acquire followed by one release. -/
theorem hold_count_invariant_witness :
    0 ≤ (⟨"p", none, 5, 0⟩ : FileLockState).lockCount ∧
    (0 < (⟨"p", none, 5, 0⟩ : FileLockState).lockCount ↔
      isLocked (⟨"p", none, 5, 0⟩ : FileLockState) = true) :=
  hold_count_invariant "p" 5
    [Op.acq none (fun _ => .created 3) (fun _ => 0) 1, Op.rel false true]
    ⟨"p", none, 5, 0⟩ (by decide)

/-! ### Claim C6 (corrected): timeout argument selection -/

/-- Counterexample to C6 as stated: a supplied timeout of `0` is NOT used
as the wait bound; line 95's Python truthiness test makes it fall back to
the configured default (here 5). -/
theorem timeout_zero_falls_back :
    effectiveTimeout (some 0) 5 = 5 ∧ effectiveTimeout (some 0) 5 ≠ 0 := by
  constructor <;> norm_num [effectiveTimeout]

/-- Claim C6 amended: a supplied nonzero timeout is used as the wait bound,
but a supplied timeout of `0` — like an omitted one — falls back to the
configured default: a `Timeout` raise is governed by the supplied value
when it is nonzero and by `defaultTimeout` when the supplied value is 0. -/
theorem timeout_selection_amended (s : FileLockState) (env : Nat → CreateOutcome)
    (elapsed : Nat → Rat) (fuel : Nat) :
    (∀ t p s1, t ≠ 0 → acquire s (some t) env elapsed fuel = .timeoutErr p s1 →
      0 ≤ t ∧ ∃ j, t < elapsed j) ∧
    (∀ p s1, acquire s (some 0) env elapsed fuel = .timeoutErr p s1 →
      0 ≤ s.defaultTimeout ∧ ∃ j, s.defaultTimeout < elapsed j) := by
  constructor
  · intro t p s1 hne h
    simp only [acquire] at h
    have he : effectiveTimeout (some t) s.defaultTimeout = t := by
      simp [effectiveTimeout, hne]
    rw [he] at h
    obtain ⟨_, _, _, ht0, j, _, hj⟩ := acquireLoop_timeout h
    exact ⟨ht0, j, hj⟩
  · intro p s1 h
    simp only [acquire] at h
    have he : effectiveTimeout (some 0) s.defaultTimeout = s.defaultTimeout := by
      simp [effectiveTimeout]
    rw [he] at h
    obtain ⟨_, _, _, ht0, j, _, hj⟩ := acquireLoop_timeout h
    exact ⟨ht0, j, hj⟩

/-- Witness for the amended C6: a call with supplied timeout `0` on an
instance whose default is 5 times out only against the default bound. -/
theorem timeout_selection_amended_witness :
    0 ≤ (FileLock.init "p" 5).defaultTimeout ∧
    ∃ j : Nat, (FileLock.init "p" 5).defaultTimeout < (j : Rat) :=
  (timeout_selection_amended (FileLock.init "p" 5)
      (fun _ => CreateOutcome.oserror .alreadyExists) (fun j => (j : Rat)) 8).2
    "p" ⟨"p", none, 5, 0⟩ (by decide)

/-! ### Claim C7 (corrected): creation errors are swallowed, not surfaced -/

/-- Counterexample to C7 as stated: a `PermissionError` raised during
lock-file creation is caught by `except (IOError, OSError): pass` — the
call propagates no error and leaves the state unchanged — and an `acquire`
facing a persistent `PermissionError` converts it into polling and a
`Timeout`, not into the underlying I/O error. -/
theorem creation_error_swallowed :
    (doAquireLock (FileLock.init "p" 5) (.oserror .permissionDenied)).2 = none ∧
    (doAquireLock (FileLock.init "p" 5) (.oserror .permissionDenied)).1 =
      FileLock.init "p" 5 ∧
    acquire (FileLock.init "p" 5) (some 1)
      (fun _ => CreateOutcome.oserror .permissionDenied) (fun j => (j : Rat)) 3 =
      .timeoutErr "p" ⟨"p", none, 5, 0⟩ :=
  ⟨rfl, rfl, by decide⟩

/-- Claim C7 amended: every `IOError`/`OSError` during lock-file creation —
"already exists" and non-contention errors alike — is swallowed by
`__doAquireLock` (no propagated error, state unchanged), and `acquire`
treats it as contention: with the error persisting it polls and raises
`Timeout` once the wait bound elapses. -/
theorem creation_error_swallowed_amended (s : FileLockState) (e : OSErrorKind)
    (elapsed : Nat → Rat) (fuel : Nat) (t : Rat)
    (hL : isLocked s = false) (hne : t ≠ 0) (ht0 : 0 ≤ t)
    (hj : ∃ j, j < fuel ∧ t < elapsed j) :
    doAquireLock s (.oserror e) = (s, none) ∧
    acquire s (some t) (fun _ => .oserror e) elapsed fuel =
      .timeoutErr s.lockFilePath { s with lockCount := max 0 (s.lockCount + 1 - 1) } := by
  refine ⟨rfl, ?_⟩
  simp only [acquire]
  have he : effectiveTimeout (some t) s.defaultTimeout = t := by
    simp [effectiveTimeout, hne]
  rw [he]
  obtain ⟨j, hjf, hje⟩ := hj
  exact acquireLoop_raises fuel 0 { s with lockCount := s.lockCount + 1 } hL
    (fun j fd h => nomatch h) ht0 ⟨j, Nat.zero_le j, by omega, hje⟩

/-- Witness for the amended C7 at a concrete permission-denied run. -/
theorem creation_error_swallowed_amended_witness :
    doAquireLock (FileLock.init "q" 5) (.oserror .permissionDenied) =
      (FileLock.init "q" 5, none) ∧
    acquire (FileLock.init "q" 5) (some 1)
      (fun _ => CreateOutcome.oserror .permissionDenied) (fun j => (j : Rat)) 3 =
      .timeoutErr (FileLock.init "q" 5).lockFilePath
        { FileLock.init "q" 5 with
            lockCount := max 0 ((FileLock.init "q" 5).lockCount + 1 - 1) } :=
  creation_error_swallowed_amended (FileLock.init "q" 5) .permissionDenied
    (fun j => (j : Rat)) 3 1 (by decide) (by norm_num) (by norm_num)
    ⟨2, by norm_num, by norm_num⟩

/-! ### Claim C8: release on an unheld lock is a no-op -/

/-- Claim C8: calling `release` (any `force` value) on an instance that does
not hold the lock changes nothing — same instance state, same filesystem,
no exception. -/
theorem release_idempotent_unheld (s : FileLockState) (force fileExists : Bool)
    (h : isLocked s = false) :
    release s force fileExists = (s, fileExists, none) :=
  release_unheld force fileExists h

/-- Witness for C8: `release(force=True)` on a fresh instance. -/
theorem release_idempotent_unheld_witness :
    release (FileLock.init "p" 5) true false = (FileLock.init "p" 5, false, none) :=
  release_idempotent_unheld (FileLock.init "p" 5) true false (by decide)

/-! ### Claim C9: release is best-effort and never raises -/

/-- Claim C9: `release` never propagates an exception, whatever the state of
the instance and the filesystem; in particular, on a holding instance whose
lock file was already deleted out-of-band, `release(force=True)` returns
normally, clearing the descriptor and the count. -/
theorem release_never_raises (s : FileLockState) (h : isLocked s = true) :
    (∀ s2 force fileExists, (release s2 force fileExists).2.2 = none) ∧
    release s true false = (⟨s.lockFilePath, none, s.defaultTimeout, 0⟩, false, none) := by
  constructor
  · intro s2 force fileExists
    by_cases hL : isLocked s2 = true
    · by_cases hcond : s2.lockCount - 1 = 0 ∨ force = true
      · rw [release_held_final fileExists hL hcond]
      · rw [release_held_nested fileExists hL hcond]
    · rw [release_unheld force fileExists (by simpa using hL)]
  · exact release_held_final false h (Or.inr rfl)

/-- Witness for C9: forced release on a holder with the file already gone. -/
theorem release_never_raises_witness :
    release (⟨"p", some 3, 5, 2⟩ : FileLockState) true false =
      (⟨"p", none, 5, 0⟩, false, none) :=
  (release_never_raises ⟨"p", some 3, 5, 2⟩ (by decide)).2

theorem MutexInv_congr {n : Nat} {g g1 : GlobalState n}
    (hf : g1.fileExists = g.fileExists)
    (hl : ∀ j, isLocked (g1.inst j) = isLocked (g.inst j))
    (h : MutexInv g) : MutexInv g1 := by
  constructor
  · intro i hi
    rw [hl i] at hi
    rw [hf]
    exact h.1 i hi
  · intro i j hi hj
    rw [hl i] at hi
    rw [hl j] at hj
    exact h.2 i j hi hj

theorem locked_update_congr {n : Nat} (g : GlobalState n) (i : Fin n)
    {s1 : FileLockState} (hs : isLocked s1 = isLocked (g.inst i)) (j : Fin n) :
    isLocked (Function.update g.inst i s1 j) = isLocked (g.inst j) := by
  by_cases hj : j = i
  · subst hj
    rw [Function.update_same, hs]
  · rw [Function.update_noteq hj]

theorem GStep_preserves_MutexInv {n : Nat} {g g1 : GlobalState n}
    (h : GStep g g1) (hInv : MutexInv g) : MutexInv g1 := by
  cases h with
  | reserve i =>
    apply MutexInv_congr _ _ hInv
    · rfl
    · intro j
      apply locked_update_congr
      rfl
  | timeoutDec i =>
    apply MutexInv_congr _ _ hInv
    · rfl
    · intro j
      apply locked_update_congr
      rfl
  | tryCreate i v =>
    by_cases hG : isLocked (g.inst i) = false ∧ g.fileExists = false
    · have hall : ∀ j, isLocked (g.inst j) = false := by
        intro j
        cases hL : isLocked (g.inst j) with
        | false => rfl
        | true =>
          have hfe := hInv.1 j hL
          rw [hG.2] at hfe
          cases hfe
      rw [tryCreateG, if_pos hG]
      constructor
      · intro j _
        rfl
      · intro j k hj hk
        have hj3 : isLocked (Function.update g.inst i
            (doAquireLock (g.inst i) (CreateOutcome.created v)).1 j) = true := hj
        have hk3 : isLocked (Function.update g.inst i
            (doAquireLock (g.inst i) (CreateOutcome.created v)).1 k) = true := hk
        have hj2 : j = i := by
          by_contra hne
          rw [Function.update_noteq hne] at hj3
          rw [hall j] at hj3
          cases hj3
        have hk2 : k = i := by
          by_contra hne
          rw [Function.update_noteq hne] at hk3
          rw [hall k] at hk3
          cases hk3
        rw [hj2, hk2]
    · rw [tryCreateG, if_neg hG]
      exact hInv
  | rel i force =>
    by_cases hL : isLocked (g.inst i) = true
    · by_cases hc : (g.inst i).lockCount - 1 = 0 ∨ force = true
      · have hr := release_held_final g.fileExists hL hc
        have hfile : (releaseG g i force).fileExists = false := by
          simp only [releaseG, hr]
        have hfalse : ∀ j, isLocked ((releaseG g i force).inst j) = true → False := by
          intro j hj
          have hj3 : isLocked (Function.update g.inst i
              (release (g.inst i) force g.fileExists).1 j) = true := hj
          rw [hr] at hj3
          by_cases hj2 : j = i
          · subst hj2
            rw [Function.update_same] at hj3
            exact Bool.noConfusion hj3
          · rw [Function.update_noteq hj2] at hj3
            exact hj2 (hInv.2 j i hj3 hL)
        exact ⟨fun j hj => (hfalse j hj).elim, fun j k hj _ => (hfalse j hj).elim⟩
      · have hr := release_held_nested g.fileExists hL hc
        apply MutexInv_congr _ _ hInv
        · show (release (g.inst i) force g.fileExists).2.1 = g.fileExists
          rw [hr]
        · intro j
          show isLocked (Function.update g.inst i
            (release (g.inst i) force g.fileExists).1 j) = isLocked (g.inst j)
          rw [hr]
          apply locked_update_congr
          rfl
    · have hL2 : isLocked (g.inst i) = false := by
        cases hb : isLocked (g.inst i) with
        | false => rfl
        | true => exact absurd hb hL
      have hr := release_unheld force g.fileExists hL2
      apply MutexInv_congr _ _ hInv
      · show (release (g.inst i) force g.fileExists).2.1 = g.fileExists
        rw [hr]
      · intro j
        show isLocked (Function.update g.inst i
          (release (g.inst i) force g.fileExists).1 j) = isLocked (g.inst j)
        rw [hr]
        apply locked_update_congr
        rfl

theorem ReachableG_MutexInv {n : Nat} {p : String} {d : Rat} {g : GlobalState n}
    (h : ReachableG n p d g) : MutexInv g := by
  induction h with
  | refl =>
    constructor
    · intro i hi
      cases hi
    · intro i j hi _
      cases hi
  | tail _ hstep ih => exact GStep_preserves_MutexInv hstep ih

/-- Claim C1: in every state reachable by interleaved contenders on one
lock path, at most one instance holds the lock; and a contender's
check-and-create step can turn its own lock on only from a state in which
the lock file is absent and no instance (holder chain) holds the lock —
i.e. only after the previous holder's release chain completed and removed
the file. -/
theorem mutual_exclusion {n : Nat} {p : String} {d : Rat} {g : GlobalState n}
    (h : ReachableG n p d g) :
    (∀ i j, isLocked (g.inst i) = true → isLocked (g.inst j) = true → i = j) ∧
    (∀ i v, isLocked (g.inst i) = false →
      isLocked ((tryCreateG g i v).inst i) = true →
      g.fileExists = false ∧ ∀ j, isLocked (g.inst j) = false) := by
  have hInv := ReachableG_MutexInv h
  refine ⟨hInv.2, ?_⟩
  intro i v hFree hAfter
  by_cases hG : isLocked (g.inst i) = false ∧ g.fileExists = false
  · refine ⟨hG.2, ?_⟩
    intro j
    cases hL : isLocked (g.inst j) with
    | false => rfl
    | true =>
      have hfe := hInv.1 j hL
      rw [hG.2] at hfe
      cases hfe
  · exfalso
    rw [tryCreateG, if_neg hG] at hAfter
    rw [hFree] at hAfter
    cases hAfter

/-- Witness for C1: at the (reachable) initial two-contender state, a
successful create by instance 0 certifies that the file was absent and
nobody held the lock. -/
theorem mutual_exclusion_witness :
    (initG 2 "p" 5).fileExists = false ∧ isLocked ((initG 2 "p" 5).inst 1) = false :=
  ⟨((mutual_exclusion Relation.ReflTransGen.refl).2 0 7 (by decide) (by decide)).1,
   ((mutual_exclusion Relation.ReflTransGen.refl).2 0 7 (by decide) (by decide)).2 1⟩

/-- Claim C10: `isLocked` consults only the instance's stored descriptor: a
fresh instance reports `false` whatever is on disk; `isLocked` is true
exactly when the instance's own descriptor is present; and in a global
state where another instance holds the lock (so the lock file exists), a
non-holding instance still reports `false` while the holder reports
`true`. -/
theorem isLocked_instance_local (p : String) (d : Rat) (v : Nat) :
    isLocked (FileLock.init p d) = false ∧
    (∀ s : FileLockState, isLocked s = true ↔ s.lockFileFileDescriptor ≠ none) ∧
    (tryCreateG (initG 2 p d) 0 v).fileExists = true ∧
    isLocked ((tryCreateG (initG 2 p d) 0 v).inst 1) = false ∧
    isLocked ((tryCreateG (initG 2 p d) 0 v).inst 0) = true := by
  have hG : isLocked ((initG 2 p d).inst 0) = false ∧ (initG 2 p d).fileExists = false :=
    ⟨rfl, rfl⟩
  refine ⟨rfl, ?_, ?_, ?_, ?_⟩
  · intro s
    simp [isLocked, Option.isSome_iff_ne_none]
  · rw [tryCreateG, if_pos hG]
  · rw [tryCreateG, if_pos hG]
    simp only
    rw [Function.update_noteq (by decide : (1 : Fin 2) ≠ 0)]
    rfl
  · rw [tryCreateG, if_pos hG]
    simp only
    rw [Function.update_same]
    rfl

example : acquire (FileLock.init "p" 5) none (fun _ => .created 3) (fun _ => 0) 1 =
    .proxy ⟨"p", some 3, 5, 1⟩ := by decide

example : acquire (FileLock.init "p" 5) (some 1) (fun _ => .oserror .alreadyExists)
    (fun k => (k : Rat)) 3 = .timeoutErr "p" ⟨"p", none, 5, 0⟩ := by decide

example : release (⟨"p", some 3, 5, 1⟩ : FileLockState) false true =
    (⟨"p", none, 5, 0⟩, false, none) := by decide
